import Mathlib

/-!
Verification development for the JANE 6502/NES emulator core.

The Rust sources (src/cpu.rs, src/mapper.rs) are shallowly embedded below.
Machine integers are represented as `Nat` with explicit reductions modulo
2^8 / 2^16 where the Rust code performs an `as` cast.  Rust's unchecked
integer arithmetic (which aborts on overflow or underflow in the build
configuration the repository uses) is embedded as `Except`-valued helpers
that produce an `EmuError.arithOverflow` instead of a wrapped result.
Fatal conditions (`unimplemented`, `unreachable`, out-of-range indexing,
writes to read-only memory, unsupported opcodes) are distinct `EmuError`
values, mirroring the distinct abort messages of the source.
-/

set_option maxRecDepth 8000

namespace Jane

/-- Fatal conditions of the emulator core.  Each constructor corresponds to
a distinct abort site in the Rust source: the explicit unimplemented bus
regions, the supposedly-unreachable default match arms, the NROM mapper's
invalid-access abort, out-of-range vector indexing, stores into read-only
memory, the unsupported-instruction abort, and unchecked integer
arithmetic that overflows or underflows. -/
inductive EmuError where
  | unimplemented
  | unreachableHit
  | invalidPrgAccess
  | outOfBounds
  | readOnlyStore
  | unsupportedInstruction
  | arithOverflow
deriving DecidableEq

/-- Unchecked 8-bit addition as the Rust source performs it on `u8`:
defined only when the mathematical sum still fits in 8 bits, otherwise the
arithmetic-overflow abort is reached. -/
def u8add (a b : Nat) : Except EmuError Nat :=
  if a + b ≤ 0xFF then .ok (a + b) else .error .arithOverflow

/-- Unchecked 8-bit subtraction on `u8`: defined only when no borrow is
needed, otherwise the arithmetic-overflow abort is reached. -/
def u8sub (a b : Nat) : Except EmuError Nat :=
  if b ≤ a then .ok (a - b) else .error .arithOverflow

/-- Unchecked 16-bit addition on `u16`. -/
def u16add (a b : Nat) : Except EmuError Nat :=
  if a + b ≤ 0xFFFF then .ok (a + b) else .error .arithOverflow

/-- Unchecked 16-bit subtraction on `u16`. -/
def u16sub (a b : Nat) : Except EmuError Nat :=
  if b ≤ a then .ok (a - b) else .error .arithOverflow

/-- Modelled from the spec: the repository's `ReadOnlyMemory` (an immutable
ROM region over a byte vector) is referenced by `mapper.rs` but its
definition is not among the provided sources.  Per the spec's Addressable
Memory contract it is a byte-addressable region whose bounds are exactly
its backing size, with out-of-range access a fatal programming error. -/
structure ReadOnlyMemory where
  size : Nat
  data : Nat → Nat

def ReadOnlyMemory.load (m : ReadOnlyMemory) (address : Nat) : Except EmuError Nat :=
  if address < m.size then .ok (m.data address) else .error .outOfBounds

/-- Modelled from the spec: the ROM variant's `store` always fails — an
invalid-write condition that is surfaced, never silently ignored. -/
def ReadOnlyMemory.store (_m : ReadOnlyMemory) (_address _value : Nat) :
    Except EmuError ReadOnlyMemory :=
  .error .readOnlyStore

/-- Modelled from the spec: the repository's `ReadWriteMemory` (fixed-size
mutable RAM) is referenced by `cpu.rs` but its definition is not among the
provided sources.  Bounds are exactly the backing size; out-of-range access
is fatal.  The backing vector is zero-filled at construction. -/
structure ReadWriteMemory where
  size : Nat
  data : Nat → Nat

def ReadWriteMemory.new (size : Nat) : ReadWriteMemory :=
  { size := size, data := fun _ => 0 }

def ReadWriteMemory.load (m : ReadWriteMemory) (address : Nat) : Except EmuError Nat :=
  if address < m.size then .ok (m.data address) else .error .outOfBounds

def ReadWriteMemory.store (m : ReadWriteMemory) (address value : Nat) :
    Except EmuError ReadWriteMemory :=
  if address < m.size then
    .ok { m with data := fun a => if a = address then value else m.data a }
  else .error .outOfBounds

/-- NROM (mapper 0) PRG mapper, from `mapper.rs`.  The `header` field of the
source struct is only consulted at construction time (for the PRG unit
count), so the embedding keeps just the derived mirroring flag and the PRG
ROM. -/
structure NRomPRG where
  is_mirroring_prg : Bool
  prg : ReadOnlyMemory

/-- Constructor `NRomPRG::new` from `mapper.rs`: mirroring is enabled
exactly when the header declares a single 16 KB PRG unit. -/
def NRomPRG.new (prg_rom_size : Nat) (prg : ReadOnlyMemory) : NRomPRG :=
  { is_mirroring_prg := prg_rom_size == 1, prg := prg }

/-- The mapper's `load` from `mapper.rs`: addresses 0x8000-0xFFFF index PRG
at `address - 0x8000`, except that with mirroring enabled addresses above
0xBFFF index at `address - 0xC000`; any other address is a fatal invalid
PRG access. -/
def NRomPRG.load (m : NRomPRG) (address : Nat) : Except EmuError Nat :=
  if 0x8000 ≤ address ∧ address ≤ 0xFFFF then
    if m.is_mirroring_prg ∧ 0xBFFF < address then
      m.prg.load (address - 0xC000)
    else
      m.prg.load (address - 0x8000)
  else .error .invalidPrgAccess

/-- The mapper's `store` from `mapper.rs`: it forwards to the read-only PRG
region, which always fails. -/
def NRomPRG.store (m : NRomPRG) (address value : Nat) : Except EmuError NRomPRG := do
  let prg ← m.prg.store address value
  .ok { m with prg := prg }

/-- Modelled from the spec: the `Memory` trait's derived little-endian
`loadw` (low byte at `address`, high byte at `address + 1`), used by the
CPU for vectors and indirect addressing; the trait itself is not among the
provided sources.  The address increment is unchecked 16-bit arithmetic. -/
def NRomPRG.loadw (m : NRomPRG) (address : Nat) : Except EmuError Nat := do
  let lo ← m.load address
  let address2 ← u16add address 1
  let hi ← m.load address2
  .ok (lo ||| (hi <<< 8))

/-- CPU status flags from `cpu.rs`. -/
inductive Flag where
  | Carry
  | Zero
  | Irq
  | Decimal
  | Break
  | Overflow
  | Negative
deriving DecidableEq

/-- The bit mask of each flag, as in the Rust `Flag` enum discriminants. -/
def Flag.mask : Flag → Nat
  | .Carry => 1
  | .Zero => 2
  | .Irq => 4
  | .Decimal => 8
  | .Break => 16
  | .Overflow => 64
  | .Negative => 128

/-- CPU registers from `cpu.rs`. -/
structure Registers where
  a : Nat
  x : Nat
  y : Nat
  s : Nat
  pc : Nat
  status : Nat
deriving DecidableEq

/-- `Registers::default()`: all fields zero. -/
def Registers.default : Registers :=
  { a := 0, x := 0, y := 0, s := 0, pc := 0, status := 0 }

/-- The CPU from `cpu.rs`.  The cartridge slot is instantiated with the
repository's only mapper, `NRomPRG`. -/
structure CPU where
  registers : Registers
  ram : ReadWriteMemory
  cartridge : NRomPRG

def NMI_VECTOR : Nat := 0xFFFA

def RESET_VECTOR : Nat := 0xFFFC

def IRQ_VECTOR : Nat := 0xFFFE

/-- `CPU::new`: default registers and a 0x800-byte RAM. -/
def CPU.new (cartridge : NRomPRG) : CPU :=
  { registers := Registers.default, ram := ReadWriteMemory.new 0x800, cartridge := cartridge }

/-- `CPU::set_status`: set or clear a flag bit in the status register.  The
clearing branch uses the `u8` complement of the mask, i.e. `mask XOR 0xFF`. -/
def CPU.set_status (cpu : CPU) (flag : Flag) (value : Bool) : CPU :=
  if value then
    { cpu with registers := { cpu.registers with status := cpu.registers.status ||| flag.mask } }
  else
    { cpu with registers :=
        { cpu.registers with status := cpu.registers.status &&& (flag.mask ^^^ 0xFF) } }

/-- `CPU::get_status`: a flag is set when its mask bit is nonzero in the
status register. -/
def CPU.get_status (cpu : CPU) (flag : Flag) : Bool :=
  cpu.registers.status &&& flag.mask != 0

/-- The bus `load` of `impl Memory for CPU`: addresses up to 0x1FFF read
internal RAM at `address AND 0x7FF`; the PPU/APU ranges are unimplemented;
0x4020-0xFFFF delegates to the cartridge; anything else reaches the
supposedly-unreachable default arm. -/
def CPU.load (cpu : CPU) (address : Nat) : Except EmuError Nat :=
  if address ≤ 0x1FFF then cpu.ram.load (address &&& 0x7FF)
  else if 0x2000 ≤ address ∧ address ≤ 0x2007 then .error .unimplemented
  else if 0x2008 ≤ address ∧ address ≤ 0x3FFF then .error .unimplemented
  else if 0x4000 ≤ address ∧ address ≤ 0x401F then .error .unimplemented
  else if 0x4020 ≤ address ∧ address ≤ 0xFFFF then cpu.cartridge.load address
  else .error .unreachableHit

/-- The bus `store` of `impl Memory for CPU`.  Note that, unlike `load`,
the RAM arm of the source match covers only 0x0000-0x07FF, so stores into
the RAM mirror range 0x0800-0x1FFF fall through to the
supposedly-unreachable default arm. -/
def CPU.store (cpu : CPU) (address value : Nat) : Except EmuError CPU :=
  if address ≤ 0x07FF then do
    let ram ← cpu.ram.store (address &&& 0x7FF) value
    .ok { cpu with ram := ram }
  else if 0x2000 ≤ address ∧ address ≤ 0x2007 then .error .unimplemented
  else if 0x2008 ≤ address ∧ address ≤ 0x3FFF then .error .unimplemented
  else if 0x4000 ≤ address ∧ address ≤ 0x401F then .error .unimplemented
  else if 0x4020 ≤ address ∧ address ≤ 0xFFFF then do
    let cartridge ← cpu.cartridge.store address value
    .ok { cpu with cartridge := cartridge }
  else .error .unreachableHit

/-- Modelled from the spec: the `Memory` trait's derived little-endian
`loadw` over the CPU bus (used for the IRQ vector and indirect jumps). -/
def CPU.loadw (cpu : CPU) (address : Nat) : Except EmuError Nat := do
  let lo ← cpu.load address
  let address2 ← u16add address 1
  let hi ← cpu.load address2
  .ok (lo ||| (hi <<< 8))

/-- `CPU::push` from `cpu.rs`: store the value at `(s as u16) OR 0x100`,
then decrement `s` with unchecked 8-bit arithmetic. -/
def CPU.push (cpu : CPU) (value : Nat) : Except EmuError CPU := do
  let address := (cpu.registers.s % 256) ||| 0x100
  let cpu ← cpu.store address value
  let s ← u8sub cpu.registers.s 1
  .ok { cpu with registers := { cpu.registers with s := s } }

/-- `CPU::pushw` from `cpu.rs`: push the high byte, then the low byte. -/
def CPU.pushw (cpu : CPU) (value : Nat) : Except EmuError CPU := do
  let cpu ← cpu.push ((value >>> 8) % 256)
  cpu.push (value % 256)

/-- `CPU::pull` from `cpu.rs`.  Note the source computes the load address
from `s` before incrementing it, so the byte returned comes from the slot
`s` pointed at before the increment. -/
def CPU.pull (cpu : CPU) : Except EmuError (Nat × CPU) := do
  let address := (cpu.registers.s % 256) ||| 0x100
  let s ← u8add cpu.registers.s 1
  let cpu := { cpu with registers := { cpu.registers with s := s } }
  let value ← cpu.load address
  .ok (value, cpu)

/-- `CPU::pullw` from `cpu.rs`.  Note the source combines the two pulled
bytes with a `u8` OR (`(word | self.pull()) as u16`), without shifting the
second byte into the high half. -/
def CPU.pullw (cpu : CPU) : Except EmuError (Nat × CPU) := do
  let (word, cpu) ← cpu.pull
  let (b, cpu) ← cpu.pull
  .ok ((word ||| b) % 65536, cpu)

/-- `CPU::load_pc`: fetch the byte at `pc` directly from the cartridge
(not through the bus), then advance `pc` with unchecked 16-bit
arithmetic. -/
def CPU.load_pc (cpu : CPU) : Except EmuError (Nat × CPU) := do
  let value ← cpu.cartridge.load cpu.registers.pc
  let pc ← u16add cpu.registers.pc 1
  .ok (value, { cpu with registers := { cpu.registers with pc := pc } })

/-- `CPU::get_pc`: return the current `pc` itself and advance it. -/
def CPU.get_pc (cpu : CPU) : Except EmuError (Nat × CPU) := do
  let address := cpu.registers.pc
  let pc ← u16add cpu.registers.pc 1
  .ok (address, { cpu with registers := { cpu.registers with pc := pc } })

/-- `CPU::loadw_pc`: two consecutive `load_pc` fetches combined
little-endian. -/
def CPU.loadw_pc (cpu : CPU) : Except EmuError (Nat × CPU) := do
  let (lo, cpu) ← cpu.load_pc
  let (hi, cpu) ← cpu.load_pc
  .ok (lo ||| (hi <<< 8), cpu)

/-- `CPU::getw_pc`: two consecutive `get_pc` calls combined little-endian.
As in the source, this combines the two program-counter addresses
themselves (not the bytes at them); the shift truncates to 16 bits as the
`u16` shift does. -/
def CPU.getw_pc (cpu : CPU) : Except EmuError (Nat × CPU) := do
  let (a1, cpu) ← cpu.get_pc
  let (a2, cpu) ← cpu.get_pc
  .ok ((a1 ||| ((a2 <<< 8) % 65536)) % 65536, cpu)

/-- `CPU::immediate_mode`. -/
def CPU.immediate_mode (cpu : CPU) : Except EmuError (Nat × CPU) :=
  cpu.get_pc

/-- `CPU::absolute_mode`. -/
def CPU.absolute_mode (cpu : CPU) : Except EmuError (Nat × CPU) :=
  cpu.getw_pc

/-- `CPU::absolute_x_mode`: unchecked 16-bit addition of `x`. -/
def CPU.absolute_x_mode (cpu : CPU) : Except EmuError (Nat × CPU) := do
  let (w, cpu) ← cpu.getw_pc
  let address ← u16add w cpu.registers.x
  .ok (address, cpu)

/-- `CPU::absolute_y_mode`: unchecked 16-bit addition of `y`. -/
def CPU.absolute_y_mode (cpu : CPU) : Except EmuError (Nat × CPU) := do
  let (w, cpu) ← cpu.getw_pc
  let address ← u16add w cpu.registers.y
  .ok (address, cpu)

/-- `CPU::zero_page_mode`. -/
def CPU.zero_page_mode (cpu : CPU) : Except EmuError (Nat × CPU) :=
  cpu.load_pc

/-- `CPU::zero_page_x_mode`: the operand byte plus `x` with unchecked
8-bit addition (no wraparound), then widened. -/
def CPU.zero_page_x_mode (cpu : CPU) : Except EmuError (Nat × CPU) := do
  let (b, cpu) ← cpu.load_pc
  let address ← u8add b cpu.registers.x
  .ok (address, cpu)

/-- `CPU::zero_page_y_mode`. -/
def CPU.zero_page_y_mode (cpu : CPU) : Except EmuError (Nat × CPU) := do
  let (b, cpu) ← cpu.load_pc
  let address ← u8add b cpu.registers.y
  .ok (address, cpu)

/-- `CPU::indirect_x_mode`. -/
def CPU.indirect_x_mode (cpu : CPU) : Except EmuError (Nat × CPU) := do
  let (b, cpu) ← cpu.load_pc
  let z ← u8add b cpu.registers.x
  let address ← cpu.loadw z
  .ok (address, cpu)

/-- `CPU::indirect_y_mode`. -/
def CPU.indirect_y_mode (cpu : CPU) : Except EmuError (Nat × CPU) := do
  let (b, cpu) ← cpu.load_pc
  let w ← cpu.loadw b
  let address ← u16add w cpu.registers.y
  .ok (address, cpu)

/-- `CPU::relative_mode` from `cpu.rs`.  When the displacement byte has its
high bit set, the source subtracts `displacement AND 0x7F` from the
advanced `pc` (a sign-and-magnitude reading), otherwise it adds the byte;
both with unchecked 16-bit arithmetic. -/
def CPU.relative_mode (cpu : CPU) : Except EmuError (Nat × CPU) := do
  let (address, cpu) ← cpu.load_pc
  if address &&& 0x80 == 0x80 then do
    let t ← u16sub cpu.registers.pc (address &&& 0x7F)
    .ok (t, cpu)
  else do
    let t ← u16add cpu.registers.pc address
    .ok (t, cpu)

/-- `CPU::set_zn`: Zero is set exactly when the value is zero, Negative
exactly when bit 7 is set. -/
def CPU.set_zn (cpu : CPU) (value : Nat) : CPU :=
  (cpu.set_status .Zero (value == 0)).set_status .Negative (value &&& 0x80 != 0)

/-- `CPU::adc`: 16-bit-wide addition of accumulator, operand and incoming
carry.  Carry is set from `result > 0xFF`; Overflow is only ever set (never
cleared) and only when both operands share a sign bit that differs from the
truncated result's. -/
def CPU.adc (cpu : CPU) (address : Nat) : Except EmuError CPU := do
  let value ← cpu.load address
  let new_a := cpu.registers.a + value
  let new_a := if cpu.get_status .Carry then new_a + 1 else new_a
  let cpu := cpu.set_status .Carry (decide (0xFF < new_a))
  let cpu :=
    if (cpu.registers.a ^^^ value) &&& 0x80 == 0 then
      if (cpu.registers.a ^^^ (new_a % 256)) &&& 0x80 == 0x80 then
        cpu.set_status .Overflow true
      else cpu
    else cpu
  let cpu := cpu.set_zn (new_a % 256)
  .ok { cpu with registers := { cpu.registers with a := new_a % 256 } }

/-- `CPU::and`. -/
def CPU.and (cpu : CPU) (address : Nat) : Except EmuError CPU := do
  let value ← cpu.load address
  let new_a := cpu.registers.a &&& value
  let cpu := cpu.set_zn new_a
  .ok { cpu with registers := { cpu.registers with a := new_a } }

/-- `CPU::asl` (memory form): carry from bit 7, then shift left with the
`u8` truncation, set Z/N, store back. -/
def CPU.asl (cpu : CPU) (address : Nat) : Except EmuError CPU := do
  let value ← cpu.load address
  let cpu := cpu.set_status .Carry (value &&& 0x80 == 0x80)
  let value := (value <<< 1) % 256
  let cpu := cpu.set_zn value
  cpu.store address value

/-- `CPU::asla` (accumulator form of ASL). -/
def CPU.asla (cpu : CPU) : Except EmuError CPU := do
  let a := cpu.registers.a
  let cpu := cpu.set_status .Carry (a &&& 0x80 == 0x80)
  let new_a := (a <<< 1) % 256
  let cpu := cpu.set_zn new_a
  .ok { cpu with registers := { cpu.registers with a := new_a } }

/-- `CPU::bcc`: when Carry is clear, set `pc` to the relative-mode target;
when Carry is set the source does nothing at all (it does not consume the
displacement byte). -/
def CPU.bcc (cpu : CPU) : Except EmuError CPU :=
  if !cpu.get_status .Carry then do
    let (t, cpu) ← cpu.relative_mode
    .ok { cpu with registers := { cpu.registers with pc := t } }
  else .ok cpu

/-- `CPU::bcs`. -/
def CPU.bcs (cpu : CPU) : Except EmuError CPU :=
  if cpu.get_status .Carry then do
    let (t, cpu) ← cpu.relative_mode
    .ok { cpu with registers := { cpu.registers with pc := t } }
  else .ok cpu

/-- `CPU::beq`. -/
def CPU.beq (cpu : CPU) : Except EmuError CPU :=
  if cpu.get_status .Zero then do
    let (t, cpu) ← cpu.relative_mode
    .ok { cpu with registers := { cpu.registers with pc := t } }
  else .ok cpu

/-- `CPU::bit`. -/
def CPU.bit (cpu : CPU) (address : Nat) : Except EmuError CPU := do
  let value ← cpu.load address
  let cpu := cpu.set_status .Negative (value &&& 0x80 == 0x80)
  let cpu := cpu.set_status .Overflow (value &&& 0x40 == 0x40)
  let a := cpu.registers.a
  .ok (cpu.set_status .Zero (a &&& value == 0))

/-- `CPU::bmi`. -/
def CPU.bmi (cpu : CPU) : Except EmuError CPU :=
  if cpu.get_status .Negative then do
    let (t, cpu) ← cpu.relative_mode
    .ok { cpu with registers := { cpu.registers with pc := t } }
  else .ok cpu

/-- `CPU::bne`. -/
def CPU.bne (cpu : CPU) : Except EmuError CPU :=
  if !cpu.get_status .Zero then do
    let (t, cpu) ← cpu.relative_mode
    .ok { cpu with registers := { cpu.registers with pc := t } }
  else .ok cpu

/-- `CPU::bpl`. -/
def CPU.bpl (cpu : CPU) : Except EmuError CPU :=
  if !cpu.get_status .Negative then do
    let (t, cpu) ← cpu.relative_mode
    .ok { cpu with registers := { cpu.registers with pc := t } }
  else .ok cpu

/-- `CPU::brk`: push `pc + 1`, set Break, push status, set IRQ-disable,
load `pc` from the IRQ vector through the bus. -/
def CPU.brk (cpu : CPU) : Except EmuError CPU := do
  let pc := cpu.registers.pc
  let t ← u16add pc 1
  let cpu ← cpu.pushw t
  let cpu := cpu.set_status .Break true
  let sr := cpu.registers.status
  let cpu ← cpu.push sr
  let cpu := cpu.set_status .Irq true
  let v ← cpu.loadw IRQ_VECTOR
  .ok { cpu with registers := { cpu.registers with pc := v } }

/-- `CPU::bvc`. -/
def CPU.bvc (cpu : CPU) : Except EmuError CPU :=
  if !cpu.get_status .Overflow then do
    let (t, cpu) ← cpu.relative_mode
    .ok { cpu with registers := { cpu.registers with pc := t } }
  else .ok cpu

/-- `CPU::bvs`. -/
def CPU.bvs (cpu : CPU) : Except EmuError CPU :=
  if cpu.get_status .Overflow then do
    let (t, cpu) ← cpu.relative_mode
    .ok { cpu with registers := { cpu.registers with pc := t } }
  else .ok cpu

/-- `CPU::cld`. -/
def CPU.cld (cpu : CPU) : Except EmuError CPU :=
  .ok (cpu.set_status .Decimal false)

/-- `CPU::clc`. -/
def CPU.clc (cpu : CPU) : Except EmuError CPU :=
  .ok (cpu.set_status .Carry false)

/-- `CPU::cli`. -/
def CPU.cli (cpu : CPU) : Except EmuError CPU :=
  .ok (cpu.set_status .Irq false)

/-- `CPU::clv`. -/
def CPU.clv (cpu : CPU) : Except EmuError CPU :=
  .ok (cpu.set_status .Overflow false)

/-- `CPU::compare`, the CMP/CPX/CPY helper: Carry is set from the unsigned
comparison, then Z/N are taken from the unchecked 8-bit difference `a - b`
(which aborts rather than wraps when `a < b`). -/
def CPU.compare (cpu : CPU) (a b : Nat) : Except EmuError CPU := do
  let cpu := cpu.set_status .Carry (decide (b ≤ a))
  let d ← u8sub a b
  .ok (cpu.set_zn d)

/-- `CPU::cmp`. -/
def CPU.cmp (cpu : CPU) (address : Nat) : Except EmuError CPU := do
  let a := cpu.registers.a
  let b ← cpu.load address
  cpu.compare a b

/-- `CPU::cpx`. -/
def CPU.cpx (cpu : CPU) (address : Nat) : Except EmuError CPU := do
  let a := cpu.registers.x
  let b ← cpu.load address
  cpu.compare a b

/-- `CPU::cpy`. -/
def CPU.cpy (cpu : CPU) (address : Nat) : Except EmuError CPU := do
  let a := cpu.registers.y
  let b ← cpu.load address
  cpu.compare a b

/-- `CPU::dec`: decrement the memory byte with unchecked 8-bit
subtraction; the source sets no flags here. -/
def CPU.dec (cpu : CPU) (address : Nat) : Except EmuError CPU := do
  let value ← cpu.load address
  let v ← u8sub value 1
  cpu.store address v

/-- `CPU::dex`: unchecked decrement of `x`; no flags. -/
def CPU.dex (cpu : CPU) : Except EmuError CPU := do
  let x ← u8sub cpu.registers.x 1
  .ok { cpu with registers := { cpu.registers with x := x } }

/-- `CPU::dey`: unchecked decrement of `y`; no flags. -/
def CPU.dey (cpu : CPU) : Except EmuError CPU := do
  let y ← u8sub cpu.registers.y 1
  .ok { cpu with registers := { cpu.registers with y := y } }

/-- `CPU::eor`. -/
def CPU.eor (cpu : CPU) (address : Nat) : Except EmuError CPU := do
  let value ← cpu.load address
  let new_a := cpu.registers.a ^^^ value
  let cpu := cpu.set_zn new_a
  .ok { cpu with registers := { cpu.registers with a := new_a } }

/-- `CPU::inc`: increment the memory byte with unchecked 8-bit addition;
no flags. -/
def CPU.inc (cpu : CPU) (address : Nat) : Except EmuError CPU := do
  let value ← cpu.load address
  let v ← u8add value 1
  cpu.store address v

/-- `CPU::inx`: unchecked increment of `x`; no flags. -/
def CPU.inx (cpu : CPU) : Except EmuError CPU := do
  let x ← u8add cpu.registers.x 1
  .ok { cpu with registers := { cpu.registers with x := x } }

/-- `CPU::iny`: unchecked increment of `y`; no flags. -/
def CPU.iny (cpu : CPU) : Except EmuError CPU := do
  let y ← u8add cpu.registers.y 1
  .ok { cpu with registers := { cpu.registers with y := y } }

/-- `CPU::jmpa`: absolute jump, `pc` from the fetched operand word. -/
def CPU.jmpa (cpu : CPU) : Except EmuError CPU := do
  let (value, cpu) ← cpu.loadw_pc
  .ok { cpu with registers := { cpu.registers with pc := value } }

/-- `CPU::jmpi`: indirect jump through the fetched operand word. -/
def CPU.jmpi (cpu : CPU) : Except EmuError CPU := do
  let (address, cpu) ← cpu.loadw_pc
  let value ← cpu.loadw address
  .ok { cpu with registers := { cpu.registers with pc := value } }

/-- `CPU::jsr`: fetch the target word (advancing `pc` past the operand),
push `pc - 1`, jump to the target. -/
def CPU.jsr (cpu : CPU) : Except EmuError CPU := do
  let (address, cpu) ← cpu.loadw_pc
  let pc := cpu.registers.pc
  let t ← u16sub pc 1
  let cpu ← cpu.pushw t
  .ok { cpu with registers := { cpu.registers with pc := address } }

/-- `CPU::lda`. -/
def CPU.lda (cpu : CPU) (address : Nat) : Except EmuError CPU := do
  let new_a ← cpu.load address
  let cpu := { cpu with registers := { cpu.registers with a := new_a } }
  .ok (cpu.set_zn new_a)

/-- `CPU::ldx`. -/
def CPU.ldx (cpu : CPU) (address : Nat) : Except EmuError CPU := do
  let new_x ← cpu.load address
  let cpu := { cpu with registers := { cpu.registers with x := new_x } }
  .ok (cpu.set_zn new_x)

/-- `CPU::ldy`. -/
def CPU.ldy (cpu : CPU) (address : Nat) : Except EmuError CPU := do
  let new_y ← cpu.load address
  let cpu := { cpu with registers := { cpu.registers with y := new_y } }
  .ok (cpu.set_zn new_y)

/-- `CPU::lsr` (memory form): shift right and store back; the source sets
no flags here. -/
def CPU.lsr (cpu : CPU) (address : Nat) : Except EmuError CPU := do
  let value ← cpu.load address
  cpu.store address (value >>> 1)

/-- `CPU::lsra` (accumulator form): shift right; no flags. -/
def CPU.lsra (cpu : CPU) : Except EmuError CPU :=
  .ok { cpu with registers := { cpu.registers with a := cpu.registers.a >>> 1 } }

/-- `CPU::nop`. -/
def CPU.nop (cpu : CPU) : Except EmuError CPU :=
  .ok cpu

/-- `CPU::ora`. -/
def CPU.ora (cpu : CPU) (address : Nat) : Except EmuError CPU := do
  let value ← cpu.load address
  let new_a := cpu.registers.a ||| value
  let cpu := { cpu with registers := { cpu.registers with a := new_a } }
  .ok (cpu.set_zn new_a)

/-- `CPU::pha`. -/
def CPU.pha (cpu : CPU) : Except EmuError CPU := do
  let a := cpu.registers.a
  cpu.push a

/-- `CPU::php`. -/
def CPU.php (cpu : CPU) : Except EmuError CPU := do
  let p := cpu.registers.status
  cpu.push p

/-- `CPU::pla`. -/
def CPU.pla (cpu : CPU) : Except EmuError CPU := do
  let (v, cpu) ← cpu.pull
  .ok { cpu with registers := { cpu.registers with a := v } }

/-- `CPU::plp`. -/
def CPU.plp (cpu : CPU) : Except EmuError CPU := do
  let (v, cpu) ← cpu.pull
  .ok { cpu with registers := { cpu.registers with status := v } }

/-- `CPU::rti`.  As in the source, the first pulled byte is written into
the stack-pointer register `s` (not the status register), then `pc` is
pulled as a word. -/
def CPU.rti (cpu : CPU) : Except EmuError CPU := do
  let (v, cpu) ← cpu.pull
  let cpu := { cpu with registers := { cpu.registers with s := v } }
  let (pc, cpu) ← cpu.pullw
  .ok { cpu with registers := { cpu.registers with pc := pc } }

/-- `CPU::rts`: pull the return word and add one (unchecked 16-bit). -/
def CPU.rts (cpu : CPU) : Except EmuError CPU := do
  let (v, cpu) ← cpu.pullw
  let pc ← u16add v 1
  .ok { cpu with registers := { cpu.registers with pc := pc } }

/-- `CPU::sec`. -/
def CPU.sec (cpu : CPU) : Except EmuError CPU :=
  .ok (cpu.set_status .Carry true)

/-- `CPU::sed`. -/
def CPU.sed (cpu : CPU) : Except EmuError CPU :=
  .ok (cpu.set_status .Decimal true)

/-- `CPU::sei`. -/
def CPU.sei (cpu : CPU) : Except EmuError CPU :=
  .ok (cpu.set_status .Irq true)

/-- `CPU::power_up`: zero the general registers, set `s` to 0xFD, load
`pc` from the reset vector through the cartridge, set IRQ-disable. -/
def CPU.power_up (cpu : CPU) : Except EmuError CPU := do
  let cpu := { cpu with registers := { cpu.registers with a := 0, x := 0, y := 0, s := 0xFD } }
  let pc ← cpu.cartridge.loadw RESET_VECTOR
  let cpu := { cpu with registers := { cpu.registers with pc := pc } }
  .ok (cpu.set_status .Irq true)

/-- `CPU::power_up_with_pc_override`: as `power_up` but with a
caller-supplied `pc`. -/
def CPU.power_up_with_pc_override (cpu : CPU) (pc : Nat) : CPU :=
  let cpu := { cpu with registers :=
    { cpu.registers with a := 0, x := 0, y := 0, s := 0xFD, pc := pc } }
  cpu.set_status .Irq true

/-- The addressing-mode resolvers named by the arms of `CPU::execute`. -/
inductive Mode where
  | immediate
  | zeroPage
  | zeroPageX
  | zeroPageY
  | absolute
  | absoluteX
  | absoluteY
  | indirectX
  | indirectY
deriving DecidableEq

/-- The address-taking instruction handlers named by the arms of
`CPU::execute`. -/
inductive Op where
  | adc
  | and
  | asl
  | bit
  | cmp
  | cpx
  | cpy
  | dec
  | eor
  | inc
  | lda
  | ldx
  | ldy
  | lsr
  | ora
deriving DecidableEq

/-- The body of one arm of the `CPU::execute` match: either an
addressing-mode resolution followed by an address-taking handler, or a
direct handler call. -/
inductive Arm where
  | mem (mode : Mode) (op : Op)
  | asla
  | bcc
  | bcs
  | beq
  | bmi
  | bne
  | bpl
  | bvc
  | bvs
  | brk
  | cld
  | clc
  | cli
  | clv
  | dex
  | dey
  | inx
  | iny
  | jmpa
  | jmpi
  | jsr
  | lsra
  | nop
  | pha
  | php
  | pla
  | plp
  | rti
  | rts
  | sec
  | sed
  | sei
deriving DecidableEq

/-- The arms of the `CPU::execute` match expression, in source order,
split into the comment groups of the source.  Rust match semantics take the
first arm whose pattern matches, so the list order is significant: the byte
0x60 appears first under ADC (absolute) and again much later as the RTS
arm, and 0x4D appears first under EOR (absolute) and again as the RTI
arm. -/
def armsADC : List (Nat × Arm) :=
  [ (0x69, .mem .immediate .adc)
  , (0x65, .mem .zeroPage .adc)
  , (0x75, .mem .zeroPageX .adc)
  , (0x60, .mem .absolute .adc)
  , (0x7D, .mem .absoluteX .adc)
  , (0x79, .mem .absoluteY .adc)
  , (0x61, .mem .indirectX .adc)
  , (0x71, .mem .indirectY .adc) ]

def armsAND : List (Nat × Arm) :=
  [ (0x29, .mem .immediate .and)
  , (0x25, .mem .zeroPage .and)
  , (0x35, .mem .zeroPageX .and)
  , (0x2D, .mem .absolute .and)
  , (0x3D, .mem .absoluteX .and)
  , (0x39, .mem .absoluteY .and)
  , (0x21, .mem .indirectX .and)
  , (0x31, .mem .indirectY .and) ]

def armsASL : List (Nat × Arm) :=
  [ (0x06, .mem .zeroPage .asl)
  , (0x16, .mem .zeroPageX .asl)
  , (0x0E, .mem .absolute .asl)
  , (0x1E, .mem .absoluteX .asl)
  , (0x0A, .asla) ]

def armsBranch : List (Nat × Arm) :=
  [ (0x90, .bcc)
  , (0xB0, .bcs)
  , (0xF0, .beq)
  , (0x30, .bmi)
  , (0xD0, .bne)
  , (0x10, .bpl)
  , (0x50, .bvc)
  , (0x70, .bvs) ]

def armsBIT : List (Nat × Arm) :=
  [ (0x24, .mem .zeroPage .bit)
  , (0x2C, .mem .absolute .bit) ]

def armsBRK : List (Nat × Arm) :=
  [ (0x00, .brk) ]

def armsClear : List (Nat × Arm) :=
  [ (0xD8, .cld)
  , (0x18, .clc)
  , (0x58, .cli)
  , (0xB8, .clv) ]

def armsCMP : List (Nat × Arm) :=
  [ (0xC9, .mem .immediate .cmp)
  , (0xC5, .mem .zeroPage .cmp)
  , (0xD5, .mem .zeroPageX .cmp)
  , (0xCD, .mem .absolute .cmp)
  , (0xDD, .mem .absoluteX .cmp)
  , (0xD9, .mem .absoluteY .cmp)
  , (0xC1, .mem .indirectX .cmp)
  , (0xD1, .mem .indirectY .cmp) ]

def armsCPX : List (Nat × Arm) :=
  [ (0xE0, .mem .immediate .cpx)
  , (0xE4, .mem .zeroPage .cpx)
  , (0xEC, .mem .absolute .cpx) ]

def armsCPY : List (Nat × Arm) :=
  [ (0xC0, .mem .immediate .cpy)
  , (0xC4, .mem .zeroPage .cpy)
  , (0xCC, .mem .absolute .cpy) ]

def armsDecrement : List (Nat × Arm) :=
  [ (0xC6, .mem .zeroPage .dec)
  , (0xD6, .mem .zeroPageX .dec)
  , (0xCE, .mem .absolute .dec)
  , (0xDE, .mem .absoluteX .dec)
  , (0xCA, .dex)
  , (0x88, .dey) ]

def armsEOR : List (Nat × Arm) :=
  [ (0x49, .mem .immediate .eor)
  , (0x45, .mem .zeroPage .eor)
  , (0x55, .mem .zeroPageX .eor)
  , (0x4D, .mem .absolute .eor)
  , (0x5D, .mem .absoluteX .eor)
  , (0x59, .mem .absoluteY .eor)
  , (0x41, .mem .indirectX .eor)
  , (0x51, .mem .indirectY .eor) ]

def armsIncrement : List (Nat × Arm) :=
  [ (0xE6, .mem .zeroPage .inc)
  , (0xF6, .mem .zeroPageX .inc)
  , (0xEE, .mem .absolute .inc)
  , (0xFE, .mem .absoluteX .inc)
  , (0xE8, .inx)
  , (0xC8, .iny) ]

def armsJump : List (Nat × Arm) :=
  [ (0x4C, .jmpa)
  , (0x6C, .jmpi)
  , (0x20, .jsr) ]

def armsLDA : List (Nat × Arm) :=
  [ (0xA9, .mem .immediate .lda)
  , (0xA5, .mem .zeroPage .lda)
  , (0xB5, .mem .zeroPageX .lda)
  , (0xAD, .mem .absolute .lda)
  , (0xBD, .mem .absoluteX .lda)
  , (0xB9, .mem .absoluteY .lda)
  , (0xA1, .mem .indirectX .lda)
  , (0xB1, .mem .indirectY .lda) ]

def armsLDX : List (Nat × Arm) :=
  [ (0xA2, .mem .immediate .ldx)
  , (0xA6, .mem .zeroPage .ldx)
  , (0xB6, .mem .zeroPageY .ldx)
  , (0xAE, .mem .absolute .ldx)
  , (0xBE, .mem .absoluteY .lda) ]

def armsLDY : List (Nat × Arm) :=
  [ (0xA0, .mem .immediate .ldy)
  , (0xA4, .mem .zeroPage .ldy)
  , (0xB4, .mem .zeroPageX .ldy)
  , (0xAC, .mem .absolute .ldy)
  , (0xBC, .mem .absoluteX .ldy) ]

def armsLSR : List (Nat × Arm) :=
  [ (0x46, .mem .zeroPage .lsr)
  , (0x56, .mem .zeroPageX .lsr)
  , (0x4E, .mem .absolute .lsr)
  , (0x5E, .mem .absoluteX .lsr)
  , (0x4A, .lsra) ]

def armsNOP : List (Nat × Arm) :=
  [ (0xEA, .nop) ]

def armsORA : List (Nat × Arm) :=
  [ (0x09, .mem .immediate .ora)
  , (0x05, .mem .zeroPage .ora)
  , (0x15, .mem .zeroPageX .ora)
  , (0x0D, .mem .absolute .ora)
  , (0x1D, .mem .absoluteX .ora)
  , (0x19, .mem .absoluteY .ora)
  , (0x01, .mem .indirectX .ora)
  , (0x11, .mem .indirectY .ora) ]

def armsPushPull : List (Nat × Arm) :=
  [ (0x48, .pha)
  , (0x08, .php)
  , (0x68, .pla)
  , (0x28, .plp) ]

def armsReturn : List (Nat × Arm) :=
  [ (0x4D, .rti)
  , (0x60, .rts) ]

def armsSet : List (Nat × Arm) :=
  [ (0x38, .sec)
  , (0xF8, .sed)
  , (0x78, .sei) ]

def executeArms : List (Nat × Arm) :=
  armsADC ++ armsAND ++ armsASL ++ armsBranch ++ armsBIT ++ armsBRK ++ armsClear ++ armsCMP ++ armsCPX ++ armsCPY ++ armsDecrement ++ armsEOR ++ armsIncrement ++ armsJump ++ armsLDA ++ armsLDX ++ armsLDY ++ armsLSR ++ armsNOP ++ armsORA ++ armsPushPull ++ armsReturn ++ armsSet

/-- First-match decoding of an opcode byte, as Rust match semantics
prescribe for the `CPU::execute` match expression. -/
def decode (instruction : Nat) : Option Arm :=
  (executeArms.find? (fun p => p.1 == instruction)).map (fun p => p.2)

/-- Run an addressing-mode resolver. -/
def CPU.runMode (cpu : CPU) : Mode → Except EmuError (Nat × CPU)
  | .immediate => cpu.immediate_mode
  | .zeroPage => cpu.zero_page_mode
  | .zeroPageX => cpu.zero_page_x_mode
  | .zeroPageY => cpu.zero_page_y_mode
  | .absolute => cpu.absolute_mode
  | .absoluteX => cpu.absolute_x_mode
  | .absoluteY => cpu.absolute_y_mode
  | .indirectX => cpu.indirect_x_mode
  | .indirectY => cpu.indirect_y_mode

/-- Run an address-taking instruction handler. -/
def CPU.runOp (cpu : CPU) (address : Nat) : Op → Except EmuError CPU
  | .adc => cpu.adc address
  | .and => cpu.and address
  | .asl => cpu.asl address
  | .bit => cpu.bit address
  | .cmp => cpu.cmp address
  | .cpx => cpu.cpx address
  | .cpy => cpu.cpy address
  | .dec => cpu.dec address
  | .eor => cpu.eor address
  | .inc => cpu.inc address
  | .lda => cpu.lda address
  | .ldx => cpu.ldx address
  | .ldy => cpu.ldy address
  | .lsr => cpu.lsr address
  | .ora => cpu.ora address

/-- Run the body of one `CPU::execute` match arm. -/
def CPU.runArm (cpu : CPU) : Arm → Except EmuError CPU
  | .mem mode op => do
      let (address, cpu) ← cpu.runMode mode
      cpu.runOp address op
  | .asla => cpu.asla
  | .bcc => cpu.bcc
  | .bcs => cpu.bcs
  | .beq => cpu.beq
  | .bmi => cpu.bmi
  | .bne => cpu.bne
  | .bpl => cpu.bpl
  | .bvc => cpu.bvc
  | .bvs => cpu.bvs
  | .brk => cpu.brk
  | .cld => cpu.cld
  | .clc => cpu.clc
  | .cli => cpu.cli
  | .clv => cpu.clv
  | .dex => cpu.dex
  | .dey => cpu.dey
  | .inx => cpu.inx
  | .iny => cpu.iny
  | .jmpa => cpu.jmpa
  | .jmpi => cpu.jmpi
  | .jsr => cpu.jsr
  | .lsra => cpu.lsra
  | .nop => cpu.nop
  | .pha => cpu.pha
  | .php => cpu.php
  | .pla => cpu.pla
  | .plp => cpu.plp
  | .rti => cpu.rti
  | .rts => cpu.rts
  | .sec => cpu.sec
  | .sed => cpu.sed
  | .sei => cpu.sei

/-- `CPU::execute`: decode the opcode byte to its first matching arm and
run it; an unmatched byte is the fatal unsupported-instruction abort. -/
def CPU.execute (cpu : CPU) (instruction : Nat) : Except EmuError CPU :=
  match decode instruction with
  | some arm => cpu.runArm arm
  | none => .error .unsupportedInstruction

/-- One iteration of the `CPU::run` fetch-execute loop: fetch the opcode
byte at `pc` and execute it. -/
def CPU.runStep (cpu : CPU) : Except EmuError CPU := do
  let (instruction, cpu) ← cpu.load_pc
  cpu.execute instruction

/-- Byte function over an initial segment given by a list (zero beyond). -/
def romBytes (l : List Nat) : Nat → Nat :=
  fun a => l.getD a 0

/-- A 32 KB PRG ROM image over an arbitrary byte function. -/
def testRom (rom : Nat → Nat) : ReadOnlyMemory :=
  { size := 0x8000, data := rom }

/-- A non-mirroring NROM cartridge (two declared 16 KB PRG units). -/
def testCart (rom : Nat → Nat) : NRomPRG :=
  NRomPRG.new 2 (testRom rom)

/-- A freshly constructed CPU powered up with `pc` overridden to 0x8000. -/
def baseCpu (rom : Nat → Nat) : CPU :=
  (CPU.new (testCart rom)).power_up_with_pc_override 0x8000

/-- A freshly constructed CPU with explicitly given registers. -/
def cpuWith (rom : Nat → Nat) (regs : Registers) : CPU :=
  { CPU.new (testCart rom) with registers := regs }

/-- The register file right after an opcode fetch at 0x8000: `pc` points at
the first operand byte, `s` at the power-up value, IRQ-disable set. -/
def regs0 : Registers :=
  { a := 0, x := 0, y := 0, s := 0xFD, pc := 0x8001, status := 0x04 }

def cpuStack : CPU := baseCpu (fun _ => 0)

def cpuBus : CPU := baseCpu (fun _ => 0)

def cpuBccTaken : CPU := cpuWith (romBytes [0x90, 0xFF]) regs0

def cpuBccNotTaken : CPU := cpuWith (romBytes [0x90, 0xFF]) { regs0 with status := 0x05 }

def cpuAdcPos : CPU := cpuWith (romBytes [0x69, 0x50]) { regs0 with a := 0x50 }

def cpuAdcStale : CPU := cpuWith (romBytes [0x69, 0x01]) { regs0 with a := 0x01, status := 0x44 }

def cpuJsr : CPU := cpuWith (romBytes [0x20, 0xBC, 0x9A]) regs0

/-- A fresh CPU whose status register is set to the given byte. -/
def statusCpu (s : Nat) : CPU := cpuWith (fun _ => 0) { regs0 with status := s }

def cpuInx : CPU := cpuWith (fun _ => 0) { regs0 with status := 0x06 }

def cpuCmpEq : CPU := cpuWith (romBytes [0xC9, 0x10]) { regs0 with a := 0x10 }

def cpuCmpLt : CPU := cpuWith (romBytes [0xC9, 0x01]) regs0

/-- A concrete ROM image used to witness the NROM mirroring theorem. -/
def wrom : ReadOnlyMemory := testRom (fun a => a % 256)

def cpuW9 : CPU := baseCpu (fun _ => 0)

def cpuFresh : CPU := baseCpu (fun _ => 0)

def cpuLdxFF : CPU := baseCpu (romBytes [0xA2, 0xFF, 0xE8])

def cpuDec0 : CPU := baseCpu (romBytes [0xC6, 0x00])

def cpuS0 : CPU := cpuWith (fun _ => 0) { regs0 with s := 0x00 }

def cpuSFF : CPU := cpuWith (fun _ => 0) { regs0 with s := 0xFF }

def cpuPla : CPU := baseCpu (romBytes [0x68, 0x68, 0x68])

/-- C1: the claimed stack round-trip fails on the code.  From the power-up
state (S = 0xFD, RAM zeroed), push 0x42 followed by pull returns 0x00
rather than 0x42, because pull computes its load address from S before
incrementing it and so reads the still-empty slot below the pushed value;
S does return to its pre-push value.  Likewise pushw 0x1234 followed by
pullw returns 0x34, because pullw combines the two pulled bytes with a
byte-wide OR and no shift. -/
theorem C1_stack_round_trip_fails :
    ((cpuStack.push 0x42).bind CPU.pull).map Prod.fst = .ok 0x00
    ∧ ((cpuStack.push 0x42).bind CPU.pull).map (fun r => r.2.registers.s) = .ok 0xFD
    ∧ ((cpuStack.pushw 0x1234).bind CPU.pullw).map Prod.fst = .ok 0x34
    ∧ ((cpuStack.pushw 0x1234).bind CPU.pullw).map (fun r => r.2.registers.s) = .ok 0xFD :=
  ⟨rfl, rfl, rfl, rfl⟩

/-- C2: bus address decoding is total and mirrored for loads, but the
store match omits the RAM mirror range: a store to 0x0800 (or 0x1FFF)
reaches the supposedly-unreachable default arm instead of RAM, so the
claimed no-gaps routing fails for stores.  Loads do mirror: after a store
to canonical address 0x0005, loads of 0x0805 and 0x1805 return the stored
byte, and the PPU/APU ranges raise the unimplemented-region condition. -/
theorem C2_bus_store_mirror_gap :
    cpuBus.store 0x0800 0x42 = .error .unreachableHit
    ∧ cpuBus.store 0x1FFF 0x42 = .error .unreachableHit
    ∧ ((cpuBus.store 0x0005 0x42).bind (fun c => c.load 0x0805)) = .ok 0x42
    ∧ ((cpuBus.store 0x0005 0x42).bind (fun c => c.load 0x1805)) = .ok 0x42
    ∧ ((cpuBus.store 0x0005 0x42).bind (fun c => c.load 0x0005)) = .ok 0x42
    ∧ cpuBus.load 0x2000 = .error .unimplemented
    ∧ cpuBus.load 0x401F = .error .unimplemented :=
  ⟨rfl, rfl, rfl, rfl, rfl, rfl, rfl⟩

/-- C3: relative addressing does not implement two's complement, and a
not-taken branch does not consume the displacement byte.  With the branch
opcode at 0x8000 and displacement byte 0xFF (two's complement -1, so the
claimed target is 0x8001), a taken BCC lands at 0x8002 - 0x7F = 0x7F83;
and with Carry set the same BCC leaves `pc` at 0x8001, one byte short of
the claimed 0x8002. -/
theorem C3_relative_branch_semantics_wrong :
    (cpuBccTaken.execute 0x90).map (fun c => c.registers.pc) = .ok 0x7F83
    ∧ (cpuBccNotTaken.execute 0x90).map (fun c => c.registers.pc) = .ok 0x8001 :=
  ⟨rfl, rfl⟩

/-- C4: the ADC arithmetic and the claimed concrete case check out
(A=0x50, M=0x50, carry=0 gives A=0xA0 with Overflow set, Carry clear,
Negative set, Zero clear), but Overflow is only ever set, never cleared:
with Overflow already set, A=0x01 plus M=0x01 leaves Overflow set even
though the operands and result make the claimed condition false. -/
theorem C4_adc_overflow_only_set_never_cleared :
    (cpuAdcPos.execute 0x69).map
      (fun c => (c.registers.a, c.get_status .Carry, c.get_status .Overflow,
                 c.get_status .Negative, c.get_status .Zero))
      = .ok (0xA0, false, true, true, false)
    ∧ (cpuAdcStale.execute 0x69).map
        (fun c => (c.registers.a, c.get_status .Overflow)) = .ok (0x02, true) :=
  ⟨rfl, rfl⟩

/-- C5: JSR behaves as claimed — from opcode address 0x8000 with target
0x9ABC it pushes 0x8002 (high byte then low byte) and jumps — but the
RTS that should resume at 0x8003 instead sets `pc` to 0x0003: pull reads
the slot below the pushed return address and pullw drops the high byte, so
the popped word is 0x0002. -/
theorem C5_jsr_rts_round_trip_broken :
    (cpuJsr.execute 0x20).map (fun c => (c.registers.pc, c.registers.s)) = .ok (0x9ABC, 0xFB)
    ∧ ((cpuJsr.execute 0x20).bind (fun c => c.load 0x01FD)) = .ok 0x80
    ∧ ((cpuJsr.execute 0x20).bind (fun c => c.load 0x01FC)) = .ok 0x02
    ∧ ((cpuJsr.execute 0x20).bind CPU.rts).map (fun c => c.registers.pc) = .ok 0x0003 :=
  ⟨rfl, rfl, rfl, rfl⟩

/-- Key fact for the flag algebra: testing a single-bit mask against a
status byte is exactly reading that bit. -/
theorem and_mask_bne_eq_testBit (x m k : Nat) (hm : m = 2 ^ k) :
    (x &&& m != 0) = x.testBit k := by
  subst hm
  rw [Nat.and_two_pow]
  cases h : x.testBit k
  · simp
  · simp [(Nat.two_pow_pos k).ne']

theorem tb_2_1 : Nat.testBit 2 1 = true := rfl

theorem tb_2_7 : Nat.testBit 2 7 = false := rfl

theorem tb_128_1 : Nat.testBit 128 1 = false := rfl

theorem tb_128_7 : Nat.testBit 128 7 = true := rfl

theorem tb_253_1 : Nat.testBit 253 1 = false := rfl

theorem tb_253_7 : Nat.testBit 253 7 = true := rfl

theorem tb_127_1 : Nat.testBit 127 1 = true := rfl

theorem tb_127_7 : Nat.testBit 127 7 = false := rfl

/-- C6: `set_zn` itself has the claimed algebra — for every starting CPU
state and every value, Zero is set exactly when the value is zero and
Negative exactly when bit 7 is set — but it is not applied after every
Z/N-defining instruction: INX with X=0 and the Zero flag set leaves X=1
with Zero still set (and DEC/DEX/DEY/INC/INY and LSR set no flags at
all). -/
theorem C6_set_zn_algebra_not_universally_applied :
    (∀ (cpu : CPU) (v : Nat),
      ((cpu.set_zn v).get_status .Zero = (v == 0))
      ∧ ((cpu.set_zn v).get_status .Negative = (v &&& 0x80 != 0)))
    ∧ (cpuInx.execute 0xE8).map
        (fun c => (c.registers.x, c.get_status .Zero, c.get_status .Negative))
      = .ok (1, true, false) := by
  refine ⟨?_, rfl⟩
  intro cpu v
  simp only [CPU.set_zn, CPU.set_status, CPU.get_status, Flag.mask]
  cases hz : v == 0 <;> cases hn : (v &&& 0x80 != 0) <;>
      simp only [hz, hn, Bool.false_eq_true, if_true, if_false, ite_true, ite_false] <;>
      refine ⟨?_, ?_⟩ <;>
      first
        | (rw [and_mask_bne_eq_testBit _ 2 1 rfl]
           simp [Nat.testBit_lor, Nat.testBit_land,
             tb_2_1, tb_2_7, tb_128_1, tb_128_7, tb_253_1, tb_253_7, tb_127_1, tb_127_7])
        | (rw [and_mask_bne_eq_testBit _ 128 7 rfl]
           simp [Nat.testBit_lor, Nat.testBit_land,
             tb_2_1, tb_2_7, tb_128_1, tb_128_7, tb_253_1, tb_253_7, tb_127_1, tb_127_7])

/-- C6 witness: the universal part of the theorem applied at a concrete
CPU state and value. -/
theorem C6_witness :
    ((statusCpu 0xFF).set_zn 0x80).get_status .Zero = (0x80 == 0)
    ∧ ((statusCpu 0xFF).set_zn 0x80).get_status .Negative = (0x80 &&& 0x80 != 0) :=
  C6_set_zn_algebra_not_universally_applied.1 (statusCpu 0xFF) 0x80

/-- C7: the claimed concrete case holds (A=0x10, M=0x10 gives Zero set,
Carry set, Negative clear), but Z/N are not taken from a wrapping
difference when register < memory: CMP with A=0x00 against M=0x01 aborts
with the arithmetic-overflow condition of the unchecked `u8` subtraction
instead of producing the wrapped difference 0xFF. -/
theorem C7_compare_aborts_on_underflow :
    (cpuCmpEq.execute 0xC9).map
      (fun c => (c.get_status .Zero, c.get_status .Carry, c.get_status .Negative))
      = .ok (true, true, false)
    ∧ cpuCmpLt.execute 0xC9 = .error .arithOverflow :=
  ⟨rfl, rfl⟩

/-- C8: NROM mirroring as claimed.  With one declared 16 KB PRG unit the
mapper mirrors the upper half onto the lower: `load (0x8000 + k)` equals
`load (0xC000 + k)` for every k up to 0x3FFF.  With two units every
address in 0x8000-0xFFFF indexes PRG linearly at `address - 0x8000`. -/
theorem C8_nrom_mirroring :
    (∀ (rom : ReadOnlyMemory) (k : Nat), k ≤ 0x3FFF →
      (NRomPRG.new 1 rom).load (0x8000 + k) = (NRomPRG.new 1 rom).load (0xC000 + k))
    ∧ (∀ (rom : ReadOnlyMemory) (address : Nat), 0x8000 ≤ address → address ≤ 0xFFFF →
      (NRomPRG.new 2 rom).load address = rom.load (address - 0x8000)) := by
  constructor
  · intro rom k hk
    have e1 : (NRomPRG.new 1 rom).load (0x8000 + k)
        = (NRomPRG.new 1 rom).prg.load (0x8000 + k - 0x8000) := by
      unfold NRomPRG.load
      rw [if_pos ⟨by omega, by omega⟩, if_neg (fun h => absurd h.2 (by omega))]
    have e2 : (NRomPRG.new 1 rom).load (0xC000 + k)
        = (NRomPRG.new 1 rom).prg.load (0xC000 + k - 0xC000) := by
      unfold NRomPRG.load
      rw [if_pos ⟨by omega, by omega⟩, if_pos ⟨rfl, by omega⟩]
    have harith : 0x8000 + k - 0x8000 = 0xC000 + k - 0xC000 := by omega
    rw [e1, e2, harith]
  · intro rom address h1 h2
    have e3 : (NRomPRG.new 2 rom).load address
        = (NRomPRG.new 2 rom).prg.load (address - 0x8000) := by
      unfold NRomPRG.load
      rw [if_pos ⟨h1, h2⟩, if_neg (fun h => Bool.false_ne_true h.1)]
    exact e3

/-- C8 witness: the mirroring theorem applied at a concrete ROM, offset
and address. -/
theorem C8_nrom_mirroring_witness :
    5 ≤ 0x3FFF
    ∧ (NRomPRG.new 1 wrom).load (0x8000 + 5) = (NRomPRG.new 1 wrom).load (0xC000 + 5)
    ∧ (NRomPRG.new 2 wrom).load 0xC123 = wrom.load (0xC123 - 0x8000) :=
  ⟨by decide, C8_nrom_mirroring.1 wrom 5 (by decide),
    C8_nrom_mirroring.2 wrom 0xC123 (by decide) (by decide)⟩

/-- C9: in the first-match dispatch of `CPU::execute`, the byte 0x60 is
claimed by the earlier ADC-absolute arm and 0x4D by the earlier
EOR-absolute arm, so for every opcode byte the decoder never selects the
rts or rti arms. -/
theorem C9_first_match_shadows_rts_rti :
    (∀ cpu : CPU, cpu.execute 0x60 = cpu.runArm (.mem .absolute .adc))
    ∧ (∀ cpu : CPU, cpu.execute 0x4D = cpu.runArm (.mem .absolute .eor))
    ∧ (∀ b : Nat, ((decode b == some .rts) || (decode b == some .rti)) = false) := by
  refine ⟨fun cpu => rfl, fun cpu => rfl, fun b => ?_⟩
  have hsmall : ∀ b, b < 256 →
      ((decode b == some Arm.rts) || (decode b == some Arm.rti)) = false := by decide
  by_cases hb : b < 256
  · exact hsmall b hb
  · have hkeys : ∀ p ∈ executeArms, p.1 < 256 := by decide
    have hnone : executeArms.find? (fun p => p.1 == b) = none := by
      rw [List.find?_eq_none]
      intro p hp
      have hlt := hkeys p hp
      simp only [beq_iff_eq]
      omega
    simp [decode, hnone]

/-- C9 witness: the dispatch facts at concrete bytes. -/
theorem C9_first_match_shadows_rts_rti_witness :
    cpuW9.execute 0x60 = cpuW9.runArm (.mem .absolute .adc)
    ∧ ((decode 0x60 == some Arm.rts) || (decode 0x60 == some Arm.rti)) = false :=
  ⟨C9_first_match_shadows_rts_rti.1 cpuW9, C9_first_match_shadows_rts_rti.2.2 0x60⟩

/-- C10: the increments, decrements and stack-pointer updates use
unchecked 8-bit arithmetic with a reachable arithmetic-overflow abort, not
modulo-256 wraparound: DEX from the power-up state (X=0) aborts; LDX 0xFF
then INX aborts; DEC of a zero RAM byte aborts; push with S=0 aborts after
its store; and three PLAs from power-up drive S to 0xFF after two steps,
with the third pull aborting (as does pull at S=0xFF directly). -/
theorem C10_unchecked_arithmetic_at_boundaries :
    cpuFresh.execute 0xCA = .error .arithOverflow
    ∧ (cpuLdxFF.runStep).map (fun c => c.registers.x) = .ok 0xFF
    ∧ ((cpuLdxFF.runStep).bind CPU.runStep) = .error .arithOverflow
    ∧ cpuDec0.runStep = .error .arithOverflow
    ∧ cpuS0.push 0x00 = .error .arithOverflow
    ∧ cpuSFF.pull = .error .arithOverflow
    ∧ ((cpuPla.runStep).bind CPU.runStep).map (fun c => c.registers.s) = .ok 0xFF
    ∧ (((cpuPla.runStep).bind CPU.runStep).bind CPU.runStep) = .error .arithOverflow :=
  ⟨rfl, rfl, rfl, rfl, rfl, rfl, rfl, rfl⟩

end Jane
